import Mathlib

/-!
# cube-gmail: IMAP unread-count monitor driving an Amperka Cube

A shallow embedding of `mail.go` and `config.go`.

* Go structs become Lean structures; a nilable pointer becomes an `Option`.
* `uint32` values are `Nat`, with `% 2 ^ 32` written where the Go code adds.
* `CubeState` is a Go `int` type, so it is `Int` here, with the four named constants.
* Calls into the IMAP library and the cube library are outcomes supplied by the caller
  (`MailEnv`, the device-open result); what the program does with them is translated
  statement by statement.
* Console output, sleeps, device commands and the channel send are recorded, in program
  order, as a list of `Event`s returned next to the new state.
* A nil-pointer dereference (a Go panic) makes the function return `none`.
* The mutex of `CubeDriver` is held for the whole of `Set` and for the two field reads of
  `Run`, so each of them is one atomic step on the shared fields `state` and `terminating`.
-/

namespace CubeGmail

/-! ## Data model -/

/-- A Go `error` value, identified by its message. -/
abbrev Error := String

/-- The struct `Config` of `config.go`; the two thresholds are `uint32`. -/
structure Config where
  Cube : String
  Addr : String
  Username : String
  Password : String
  Label : String
  GreenIfMore : Nat
  RedIfMore : Nat

/-- The type `CubeState`, declared `type CubeState int`. -/
abbrev CubeState := Int

/-- Constant `OFF CubeState = 0`. -/
abbrev OFF : CubeState := 0
/-- Constant `GREEN CubeState = 1`. -/
abbrev GREEN : CubeState := 1
/-- Constant `RED CubeState = 2`. -/
abbrev RED : CubeState := 2
/-- Constant `TERMINATE CubeState = 1000`. -/
abbrev TERMINATE : CubeState := 1000

/-- Durations in milliseconds: `loopSleepPeriod = 1 * time.Second`. -/
def loopSleepPeriod : Nat := 1000
/-- Duration `errorSleepPeriod = 60 * time.Second`, in milliseconds. -/
def errorSleepPeriod : Nat := 60000
/-- Duration `waitPeriod = 10 * time.Second`, in milliseconds. -/
def waitPeriod : Nat := 10000
/-- Duration `blinkPeriod = 100 * time.Millisecond`, in milliseconds. -/
def blinkPeriod : Nat := 100

/-- An `*imap.Client`: the only part of it the program reads is the capability map. -/
structure Client where
  id : Nat
  Caps : String → Bool

/-- An `*imap.MailboxStatus`; `Unseen` is a `uint32`. -/
structure MailboxStatus where
  Unseen : Nat

/-- An `*imap.Response` of a command: `MailboxStatus()` is nil unless the response carries
a mailbox status. -/
structure Response where
  MailboxStatus : Option MailboxStatus

/-- An `*imap.Command` that was sent: `result` is the error of `cmd.Result(imap.OK)`
(`none` when the server answered OK), `Data` the responses collected for it. -/
structure Command where
  result : Option Error
  Data : List Response

/-- The pair `(cmd, err)` returned by a client call such as `Status`, `Login`, `StartTLS`. -/
inductive CmdResult where
  | sent (cmd : Command)
  | failed (err : Error)

/-- The pair `(c, err)` returned by `imap.Dial` / `imap.DialTLS`: a nil error comes with a
client, a non-nil error with whatever client pointer the library hands back. -/
inductive DialResult where
  | ok (c : Client)
  | fail (c : Option Client) (err : Error)

/-- What the mail server does during one `RunOnce`: the outcome of each library call. -/
structure MailEnv where
  dialTLS : DialResult
  dial : DialResult
  startTLS : CmdResult
  login : CmdResult
  status : CmdResult

/-- The device handle `cube.Cube` returned by `cube.NewCube`. -/
structure Cube where
  port : String
deriving DecidableEq

/-- The commands of the `cube.Cube` interface the program issues. -/
inductive DevCmd where
  | Green
  | Red
  | Off
  | Close
deriving DecidableEq, Repr

/-- The texts the program prints, by format string. -/
inductive Line where
  | connecting (addr : String)
  | connected
  | errorSleep (err : Error) (period : Nat)
  | dialError (addr : String) (err : Error)
  | tlsError (err : Error)
  | loginError (err : Error)
  | unread (count : Nat)
  | cubeNow (s : CubeState)
  | imapError (err : Error)
  | commandError (err : Error)
deriving DecidableEq, Repr

/-- Observable actions, in program order. -/
inductive Event where
  | print (l : Line)
  | trace (l : Line)
  | sleep (ms : Nat)
  | logMask (safe : Bool)
  | clientClose (id : Nat) (expunge : Bool)
  | dev (c : DevCmd)
  | terminated
deriving DecidableEq, Repr

/-- The struct `CubeDriver`. The mutex is represented by atomicity of `Set` and of the
locked reads; a send on the channel `terminated` is the event `Event.terminated`. -/
structure CubeDriver where
  config : Config
  state : CubeState
  c : Option Cube
  terminating : Bool

/-- The struct `MboxMonitor`; `prevCount` is a `uint32`. -/
structure MboxMonitor where
  config : Config
  client : Option Client
  driver : Option CubeDriver
  prevCount : Nat

/-! ## Device controller -/

/-- Function `NewCubeDriver`: every field but `config` has its zero value. -/
def NewCubeDriver (config : Config) : CubeDriver :=
  { config := config, state := 0, c := none, terminating := false }

/-- Method `CubeDriver.Set`: under the lock, when the state differs it is stored and the
transition is printed for `RED`, `GREEN` and `OFF` (the `switch` has no other case). -/
def CubeDriver.Set (c : CubeDriver) (state : CubeState) : CubeDriver × List Event :=
  if c.state ≠ state then
    ({ c with state := state },
      if state = RED then [Event.print (Line.cubeNow RED)]
      else if state = GREEN then [Event.print (Line.cubeNow GREEN)]
      else if state = OFF then [Event.print (Line.cubeNow OFF)]
      else [])
  else (c, [])

/-- Method `CubeDriver.Close` up to its last statement: `Set(OFF)`, then the terminating
flag is raised under the lock. The last statement, the receive `<-c.terminated`, returns
when `Run` performs `Event.terminated`. -/
def CubeDriver.Close (c : CubeDriver) : CubeDriver × List Event :=
  let r := c.Set OFF
  ({ r.1 with terminating := true }, r.2)

/-- The part of one iteration of `CubeDriver.Run` after the device handle is known to be
non-nil: the locked reads, the terminating branch, the `switch`. The flag returned is
`true` when `Run` returns. -/
def CubeDriver.Run.render (c : CubeDriver) : CubeDriver × List Event × Bool :=
  let state := c.state
  let terminating := c.terminating
  if terminating then
    (c, [Event.dev DevCmd.Off, Event.dev DevCmd.Close, Event.terminated], true)
  else if state = GREEN then
    (c, [Event.dev DevCmd.Green, Event.sleep blinkPeriod,
         Event.dev DevCmd.Off, Event.sleep blinkPeriod], false)
  else if state = RED then
    (c, [Event.dev DevCmd.Red, Event.sleep blinkPeriod,
         Event.dev DevCmd.Off, Event.sleep blinkPeriod], false)
  else
    (c, [Event.dev DevCmd.Off, Event.sleep blinkPeriod], false)

/-- One iteration of the `for` loop of `CubeDriver.Run`. `opened` is the outcome of
`cube.NewCube(c.config.Cube)`, consulted only when the handle is nil. -/
def CubeDriver.Run.iteration (opened : Except Error Cube) (c : CubeDriver) :
    CubeDriver × List Event × Bool :=
  match c.c with
  | none =>
    match opened with
    | .error _ => (c, [Event.sleep waitPeriod], false)
    | .ok drv => CubeDriver.Run.render { c with c := some drv }
  | some _ => CubeDriver.Run.render c

/-- Method `CubeDriver.Run`, for as many iterations as there are device-open outcomes
(one is consumed per iteration) and with no `Set` or `Close` in between: it stops at the
iteration that returns. The flag tells whether `Run` returned. -/
def CubeDriver.Run : List (Except Error Cube) → CubeDriver → CubeDriver × List Event × Bool
  | [], c => (c, [], false)
  | o :: os, c =>
    let r := CubeDriver.Run.iteration o c
    if r.2.2 then r
    else
      let r2 := CubeDriver.Run os r.1
      (r2.1, r.2.1 ++ r2.2.1, r2.2.2)

/-- The device commands among a list of events. -/
def deviceCommands : List Event → List DevCmd
  | [] => []
  | Event.dev d :: es => d :: deviceCommands es
  | _ :: es => deviceCommands es

/-- A sequence of `Set` calls applied in order; the events of all of them. -/
def CubeDriver.SetAll : List CubeState → CubeDriver → CubeDriver × List Event
  | [], c => (c, [])
  | s :: ss, c =>
    let r := c.Set s
    let r2 := CubeDriver.SetAll ss r.1
    (r2.1, r.2 ++ r2.2)

/-! ## Mailbox monitor -/

/-- Function `NewMboxMonitor`: only `config` is assigned. -/
def NewMboxMonitor (config : Config) : MboxMonitor :=
  { config := config, client := none, driver := none, prevCount := 0 }

/-- Go `strings.HasSuffix`. -/
def HasSuffix (s suffix : String) : Bool :=
  suffix.data.isSuffixOf s.data

/-- Function `check`: a send error or a non-OK result is traced and returned. -/
def check (r : CmdResult) : Except Error Command × List Event :=
  match r with
  | .failed err => (.error err, [Event.trace (Line.imapError err)])
  | .sent cmd =>
    match cmd.result with
    | some err => (.error err, [Event.trace (Line.commandError err)])
    | none => (.ok cmd, [])

/-- The login step of `Connect` (from `c.SetLogMask(imapSafeLogMask)` to the end). -/
def MboxMonitor.Connect.login (env : MailEnv) (m : MboxMonitor) (evs : List Event) :
    MboxMonitor × Option Error × List Event :=
  match check env.login with
  | (.error err, evs2) =>
    (m, some err, evs ++ [Event.logMask true] ++ evs2 ++
      [Event.logMask false, Event.print (Line.loginError err)])
  | (.ok _, evs2) => (m, none, evs ++ [Event.logMask true] ++ evs2 ++ [Event.logMask false])

/-- The client pointer of a dial result. -/
def DialResult.client : DialResult → Option Client
  | .ok c => some c
  | .fail c _ => c

/-- The dial of `Connect`: `imap.DialTLS` for an address ending in `:993`, else `imap.Dial`. -/
def MboxMonitor.Connect.dial (env : MailEnv) (m : MboxMonitor) : DialResult :=
  if HasSuffix m.config.Addr ":993" then env.dialTLS else env.dial

/-- Method `MboxMonitor.Connect`: returns the monitor, the error (`none` for nil) and the
events. The dialled client is stored in the monitor before the error is looked at. -/
def MboxMonitor.Connect (env : MailEnv) (m : MboxMonitor) :
    MboxMonitor × Option Error × List Event :=
  let addr := m.config.Addr
  match MboxMonitor.Connect.dial env m with
  | .fail c err => ({ m with client := c }, some err, [Event.print (Line.dialError addr err)])
  | .ok c =>
    let m1 := { m with client := some c }
    if c.Caps "STARTTLS" then
      match check env.startTLS with
      | (.error err, evs) => (m1, some err, evs ++ [Event.print (Line.tlsError err)])
      | (.ok _, evs) => MboxMonitor.Connect.login env m1 evs
    else MboxMonitor.Connect.login env m1 []

/-- Method `MboxMonitor.Disconnect`; `none` when `m.driver` is nil. -/
def MboxMonitor.Disconnect (m : MboxMonitor) : Option (MboxMonitor × List Event) :=
  match m.driver with
  | none => none
  | some d =>
    let r := d.Set OFF
    let closing : List Event :=
      match m.client with
      | some cl => [Event.clientClose cl.id false]
      | none => []
    some ({ m with driver := some r.1, client := none }, r.2 ++ closing)

/-- The loop of `QueryUnreadCount`: `count += mailboxStatus.Unseen` on a `uint32`. -/
def QueryUnreadCount.loop : List Response → Nat → Nat
  | [], count => count
  | result :: rest, count =>
    match result.MailboxStatus with
    | some mailboxStatus => QueryUnreadCount.loop rest ((count + mailboxStatus.Unseen) % 2 ^ 32)
    | none => QueryUnreadCount.loop rest count

/-- The body of `QueryUnreadCount` on a non-nil client; `status` is the outcome of
`m.client.Status(m.config.Label)`. -/
def QueryUnreadCount.onClient (status : CmdResult) : Except Error Nat × List Event :=
  match check status with
  | (.error err, evs) => (.error err, evs)
  | (.ok cmd, evs) => (.ok (QueryUnreadCount.loop cmd.Data 0), evs)

/-- Method `MboxMonitor.QueryUnreadCount`; it is `none` when `m.client` is nil. -/
def MboxMonitor.QueryUnreadCount (status : CmdResult) (m : MboxMonitor) :
    Option (Except Error Nat × List Event) :=
  match m.client with
  | none => none
  | some _ => some (QueryUnreadCount.onClient status)

/-- The sum of the unseen counts of the status records among the responses, as an
unbounded number: the quantity the specification names. -/
def unseenSum : List Response → Nat
  | [] => 0
  | r :: rs =>
    match r.MailboxStatus with
    | some st => st.Unseen + unseenSum rs
    | none => unseenSum rs

/-- The three-way threshold test at the end of `RunOnce`: the state passed to `Set`. -/
def MboxMonitor.RunOnce.derive (config : Config) (count : Nat) : CubeState :=
  if count > config.RedIfMore then RED
  else if count > config.GreenIfMore then GREEN
  else OFF

/-- Method `RunOnce` from the call of `QueryUnreadCount` to the end. -/
def MboxMonitor.RunOnce.poll (env : MailEnv) (m : MboxMonitor) :
    Option (MboxMonitor × List Event) :=
  match m.QueryUnreadCount env.status with
  | none => none
  | some (.error err, evs) =>
    match m.Disconnect with
    | none => none
    | some (m2, evs2) =>
      some (m2, evs ++ [Event.print (Line.errorSleep err errorSleepPeriod)] ++ evs2 ++
        [Event.sleep errorSleepPeriod])
  | some (.ok count, evs) =>
    let counted : MboxMonitor × List Event :=
      if m.prevCount ≠ count then
        ({ m with prevCount := count }, [Event.print (Line.unread count)])
      else (m, [])
    match counted.1.driver with
    | none => none
    | some d =>
      let r := d.Set (MboxMonitor.RunOnce.derive m.config count)
      some ({ counted.1 with driver := some r.1 }, evs ++ counted.2 ++ r.2)

/-- Method `MboxMonitor.RunOnce`; `none` when a nil pointer is dereferenced. -/
def MboxMonitor.RunOnce (env : MailEnv) (m : MboxMonitor) : Option (MboxMonitor × List Event) :=
  match m.client with
  | none =>
    let r := m.Connect env
    match r.2.1 with
    | some err =>
      match r.1.Disconnect with
      | none => none
      | some (m2, evs2) =>
        some (m2, [Event.print (Line.connecting m.config.Addr)] ++ r.2.2 ++
          [Event.print (Line.errorSleep err errorSleepPeriod)] ++ evs2 ++
          [Event.sleep errorSleepPeriod])
    | none =>
      match MboxMonitor.RunOnce.poll env r.1 with
      | none => none
      | some (m2, evs2) =>
        some (m2, [Event.print (Line.connecting m.config.Addr)] ++ r.2.2 ++
          [Event.print Line.connected] ++ evs2)
  | some _ => MboxMonitor.RunOnce.poll env m

/-- The start of `MboxMonitor.Run`: the driver is created and stored (its `Run` goroutine
touches none of the monitor fields). -/
def MboxMonitor.Run.start (m : MboxMonitor) : MboxMonitor :=
  { m with driver := some (NewCubeDriver m.config) }

/-- The `for` loop of `MboxMonitor.Run` for as long as the timer wins the `select`:
`RunOnce`, then the one-second timer; one `MailEnv` per iteration. -/
def MboxMonitor.Run.loop : List MailEnv → MboxMonitor → Option (MboxMonitor × List Event)
  | [], m => some (m, [])
  | env :: envs, m =>
    match m.RunOnce env with
    | none => none
    | some (m1, evs) =>
      match MboxMonitor.Run.loop envs m1 with
      | none => none
      | some (m2, evs2) => some (m2, evs ++ [Event.sleep loopSleepPeriod] ++ evs2)

/-- The number of unread-count lines printed among the events. -/
def unreadLines : List Event → Nat
  | [] => 0
  | Event.print (Line.unread _) :: es => unreadLines es + 1
  | _ :: es => unreadLines es

/-- Events that are neither a transition line of the cube nor an unread-count line. -/
def Event.isQuiet : Event → Bool
  | .print (.cubeNow _) => false
  | .print (.unread _) => false
  | _ => true

/-- The desired state held by the controller of a monitor. -/
def MboxMonitor.desired (m : MboxMonitor) : Option CubeState :=
  match m.driver with
  | some d => some d.state
  | none => none

/-- The desired state of the controller after a run of the monitor that did not panic. -/
def desiredAfter : Option (MboxMonitor × List Event) → Option CubeState
  | some (m, _) => m.desired
  | none => none

/-- The number of unread-count lines printed by a run of the monitor that did not panic. -/
def unreadLinesOf : Option (MboxMonitor × List Event) → Option Nat
  | some (_, evs) => some (unreadLines evs)
  | none => none

/-! ## Concrete inputs -/

/-- A configuration with `RedIfMore = 5` and `GreenIfMore = 10`. -/
def exampleConfig : Config :=
  { Cube := "COM3", Addr := "imap.example.org:993", Username := "user", Password := "secret",
    Label := "INBOX", GreenIfMore := 10, RedIfMore := 5 }

/-- A client that advertises no capability. -/
def exampleClient : Client := { id := 1, Caps := fun _ => false }

/-- Status records with the given unseen counts. -/
def statusRecords : List Nat → List Response
  | [] => []
  | u :: us => { MailboxStatus := some { Unseen := u } } :: statusRecords us

/-- An OK status command whose responses are status records with the given unseen counts. -/
def statusOf (unseen : List Nat) : CmdResult :=
  .sent { result := none, Data := statusRecords unseen }

/-- A server that accepts the connection and the login and answers the status request
as given. -/
def exampleEnv (status : CmdResult) : MailEnv :=
  { dialTLS := .ok exampleClient, dial := .ok exampleClient, startTLS := .failed "unused",
    login := .sent { result := none, Data := [] }, status := status }

/-- A server that accepts the connection and rejects the login: the `Login` call itself
returns the error. -/
def rejectingEnv : MailEnv :=
  { dialTLS := .ok exampleClient, dial := .ok exampleClient, startTLS := .failed "unused",
    login := .failed "NO login", status := .failed "unused" }

/-- The outcomes of device opens that all fail, one per error. -/
def failedOpens : List Error → List (Except Error Cube)
  | [] => []
  | e :: es => Except.error e :: failedOpens es

/-- A monitor as `Run` starts it with the given configuration, already connected. -/
def connectedMonitor (config : Config) : MboxMonitor :=
  { config := config, client := some exampleClient, driver := some (NewCubeDriver config),
    prevCount := 0 }

/-! ## Lemmas on the device controller -/

theorem CubeDriver.Set_fst (c : CubeDriver) (s : CubeState) :
    (c.Set s).1 = { c with state := s } := by
  unfold CubeDriver.Set
  by_cases h : c.state = s
  · subst h; simp
  · simp [h]

theorem CubeDriver.SetAll_fields (ss : List CubeState) (c : CubeDriver) :
    (CubeDriver.SetAll ss c).1.terminating = c.terminating ∧
    (CubeDriver.SetAll ss c).1.c = c.c := by
  induction ss generalizing c with
  | nil => simp [CubeDriver.SetAll]
  | cons s ss ih =>
    simp only [CubeDriver.SetAll]
    have h := ih (c.Set s).1
    rw [CubeDriver.Set_fst] at h ⊢
    exact h

theorem CubeDriver.Close_fst (c : CubeDriver) :
    c.Close.1 = { c with state := OFF, terminating := true } := by
  simp [CubeDriver.Close, CubeDriver.Set_fst]

/-- In an iteration that reaches the locked reads, the handle the reads happen with. -/
theorem CubeDriver.Run.iteration_of_open (opened : Except Error Cube) (c : CubeDriver)
    (h : c.c.isSome = true ∨ opened.isOk = true) :
    ∃ drv, CubeDriver.Run.iteration opened c = CubeDriver.Run.render { c with c := some drv } := by
  unfold CubeDriver.Run.iteration
  cases hc : c.c with
  | some drv =>
    refine ⟨drv, ?_⟩
    simp only
    congr 1
    cases c; simp_all
  | none =>
    cases opened with
    | error e => simp [hc, Except.isOk, Except.toBool] at h
    | ok drv => exact ⟨drv, rfl⟩

/-- The events of one rendering step in which the terminating flag is clear. -/
theorem CubeDriver.Run.render_running (c : CubeDriver) (h : c.terminating = false) :
    (CubeDriver.Run.render c).1 = c ∧ (CubeDriver.Run.render c).2.2 = false ∧
    deviceCommands (CubeDriver.Run.render c).2.1 =
      (if c.state = GREEN then [DevCmd.Green, DevCmd.Off]
       else if c.state = RED then [DevCmd.Red, DevCmd.Off] else [DevCmd.Off]) := by
  unfold CubeDriver.Run.render
  simp only [h]
  by_cases hg : c.state = GREEN
  · simp [hg, deviceCommands]
  · by_cases hr : c.state = RED
    · simp [hr, deviceCommands]
    · simp [hg, hr, deviceCommands]

theorem deviceCommands_append (xs ys : List Event) :
    deviceCommands (xs ++ ys) = deviceCommands xs ++ deviceCommands ys := by
  induction xs with
  | nil => rfl
  | cons x xs ih => cases x <;> simp [deviceCommands, ih]

/-- Iterations of `Run` with the handle already set and the flag clear: each one renders
the same state and none returns. -/
theorem CubeDriver.Run_running (opens : List (Except Error Cube)) (c : CubeDriver) (drv : Cube)
    (hc : c.c = some drv) (h : c.terminating = false) :
    (CubeDriver.Run opens c).1 = c ∧ (CubeDriver.Run opens c).2.2 = false ∧
    deviceCommands (CubeDriver.Run opens c).2.1 =
      (List.replicate opens.length
        (if c.state = GREEN then [DevCmd.Green, DevCmd.Off]
         else if c.state = RED then [DevCmd.Red, DevCmd.Off] else [DevCmd.Off])).flatten := by
  induction opens with
  | nil => simp [CubeDriver.Run, deviceCommands]
  | cons o os ih =>
    have hit : CubeDriver.Run.iteration o c = CubeDriver.Run.render c := by
      simp [CubeDriver.Run.iteration, hc]
    obtain ⟨h1, h2, h3⟩ := CubeDriver.Run.render_running c h
    obtain ⟨i1, i2, i3⟩ := ih
    simp only [CubeDriver.Run, hit, h2, h1, Bool.false_eq_true, if_false]
    refine ⟨i1, i2, ?_⟩
    rw [deviceCommands_append, h3, i3]
    simp [List.replicate_succ]

/-- Iterations of `Run` whose device open fails: each one only sleeps `waitPeriod` and
leaves the driver as it was, so `Run` carries on from the same driver. -/
theorem CubeDriver.Run_failedOpens (errs : List Error) (os : List (Except Error Cube))
    (c : CubeDriver) (hc : c.c = none) :
    CubeDriver.Run (failedOpens errs ++ os) c =
      ((CubeDriver.Run os c).1,
       List.replicate errs.length (Event.sleep waitPeriod) ++ (CubeDriver.Run os c).2.1,
       (CubeDriver.Run os c).2.2) := by
  induction errs with
  | nil => simp [failedOpens]
  | cons e es ih =>
    have hit : CubeDriver.Run.iteration (Except.error e) c = (c, [Event.sleep waitPeriod], false) := by
      simp [CubeDriver.Run.iteration, hc]
    have hrun : CubeDriver.Run (Except.error e :: (failedOpens es ++ os)) c =
        ((CubeDriver.Run (failedOpens es ++ os) c).1,
         [Event.sleep waitPeriod] ++ (CubeDriver.Run (failedOpens es ++ os) c).2.1,
         (CubeDriver.Run (failedOpens es ++ os) c).2.2) := by
      simp [CubeDriver.Run, hit]
    rw [failedOpens, List.cons_append, hrun, ih]
    simp [List.replicate_succ]

/-- With the terminating flag set, the iteration of `Run` that has the device open emits
`Off`, `Close` and the completion signal, and `Run` returns there. -/
theorem CubeDriver.Run_terminating (opened : Except Error Cube)
    (rest : List (Except Error Cube)) (c : CubeDriver)
    (hopen : c.c.isSome = true ∨ opened.isOk = true) (ht : c.terminating = true) :
    (CubeDriver.Run (opened :: rest) c).2 =
      ([Event.dev DevCmd.Off, Event.dev DevCmd.Close, Event.terminated], true) := by
  obtain ⟨drv, hd⟩ := CubeDriver.Run.iteration_of_open opened c hopen
  simp [CubeDriver.Run, hd, CubeDriver.Run.render, ht]

/-! ## Claims on the device controller -/

/-- C6: after `Set(s)` the desired state is `s`, for every value `s`, and `Set(s)` twice is
the same as `Set(s)` once, events included; when `s` is one of the signal states `OFF`,
`GREEN`, `RED`, the events of `Set(s)` are exactly one transition line if `s` differs from
the state before the call and nothing otherwise. -/
theorem CubeDriver.Set_state_and_transition_line (c : CubeDriver) (s : CubeState)
    (hs : s = OFF ∨ s = GREEN ∨ s = RED) :
    (∀ t : CubeState, (c.Set t).1.state = t ∧ CubeDriver.SetAll [t, t] c = c.Set t ∧
      (c.Set t).2.length ≤ 1) ∧
    (c.Set s).2 = (if s ≠ c.state then [Event.print (Line.cubeNow s)] else []) ∧
    (c.Set s).1.terminating = c.terminating ∧ (c.Set s).1.c = c.c := by
  refine ⟨fun t => ⟨by rw [CubeDriver.Set_fst], ?_, ?_⟩, ?_, by rw [CubeDriver.Set_fst],
    by rw [CubeDriver.Set_fst]⟩
  · have h2 : (c.Set t).1.Set t = ((c.Set t).1, []) := by
      rw [CubeDriver.Set_fst]; simp [CubeDriver.Set]
    simp [CubeDriver.SetAll, h2]
  · unfold CubeDriver.Set
    by_cases h : c.state = t
    · simp [h]
    · simp only [ne_eq, h, not_false_eq_true, if_true]
      split_ifs <;> simp
  · unfold CubeDriver.Set
    by_cases h : c.state = s
    · simp [h]
    · have h2 : ¬ s = c.state := fun e => h e.symm
      rcases hs with hs | hs | hs <;> subst hs <;> simp [h, h2]

/-- C6, at a concrete input: `Set(RED)` on a new driver. -/
theorem CubeDriver.Set_state_and_transition_line_witness :
    ((NewCubeDriver exampleConfig).Set RED).2 = [Event.print (Line.cubeNow RED)] ∧
    ((NewCubeDriver exampleConfig).Set RED).1.state = RED :=
  have h := CubeDriver.Set_state_and_transition_line (NewCubeDriver exampleConfig) RED
    (Or.inr (Or.inr rfl))
  ⟨by rw [h.2.1]; decide, (h.1 RED).1⟩

/-- C7: `Close` leaves the desired state `OFF` and the terminating flag raised; whatever
`Set` calls follow, the flag is still raised, and the next iteration of `Run` that has the
device open (handle already set, or opened in that iteration) issues `Off`, then `Close`,
then the completion signal, and `Run` returns there: nothing of the remaining iterations
is executed. -/
theorem CubeDriver.Close_then_Run_completes (c : CubeDriver) (sets : List CubeState)
    (opened : Except Error Cube) (rest : List (Except Error Cube))
    (hopen : c.c.isSome = true ∨ opened.isOk = true) :
    c.Close.1.state = OFF ∧ c.Close.1.terminating = true ∧
    (CubeDriver.SetAll sets c.Close.1).1.terminating = true ∧
    (CubeDriver.Run (opened :: rest) (CubeDriver.SetAll sets c.Close.1).1).2 =
      ([Event.dev DevCmd.Off, Event.dev DevCmd.Close, Event.terminated], true) := by
  have hf := CubeDriver.SetAll_fields sets c.Close.1
  have hc := CubeDriver.Close_fst c
  have ht : (CubeDriver.SetAll sets c.Close.1).1.terminating = true := by
    rw [hf.1, hc]
  refine ⟨by rw [hc], by rw [hc], ht, ?_⟩
  have hopen2 : (CubeDriver.SetAll sets c.Close.1).1.c.isSome = true ∨ opened.isOk = true := by
    rw [hf.2, hc]; exact hopen
  obtain ⟨drv, hd⟩ := CubeDriver.Run.iteration_of_open opened _ hopen2
  simp [CubeDriver.Run, hd, CubeDriver.Run.render, ht]

/-- C7, at a concrete input: a new driver whose device opens in the iteration after
`Close`, with `Set(RED)` and `Set(GREEN)` called in between. -/
theorem CubeDriver.Close_then_Run_completes_witness :
    (CubeDriver.Run [Except.ok ⟨"COM3"⟩, Except.error "gone"]
      (CubeDriver.SetAll [RED, GREEN] (NewCubeDriver exampleConfig).Close.1).1).2 =
      ([Event.dev DevCmd.Off, Event.dev DevCmd.Close, Event.terminated], true) :=
  (CubeDriver.Close_then_Run_completes (NewCubeDriver exampleConfig) [RED, GREEN]
    (Except.ok ⟨"COM3"⟩) [Except.error "gone"] (Or.inr rfl)).2.2.2

/-- C9, refuted as stated: with the terminating flag raised by `Close`, an iteration of
`Run` whose device open fails only sleeps `waitPeriod` and goes round again; it emits no
completion signal and `Run` does not return, however many such iterations follow. -/
theorem CubeDriver.Run_failed_open_ignores_terminating :
    (NewCubeDriver exampleConfig).Close.1.terminating = true ∧
    (CubeDriver.Run.iteration (Except.error "no cube") (NewCubeDriver exampleConfig).Close.1).2 =
      ([Event.sleep waitPeriod], false) ∧
    (CubeDriver.Run [Except.error "no cube", Except.error "no cube", Except.error "no cube"]
      (NewCubeDriver exampleConfig).Close.1).2 =
      ([Event.sleep waitPeriod, Event.sleep waitPeriod, Event.sleep waitPeriod], false) := by
  decide

/-- C9, amended: in every iteration of `Run` in which the device is open (handle already
set, or opened in that iteration) the terminating flag decides the iteration: `Run`
returns in it exactly when the flag is set, and then the iteration ends with the
completion signal, while with the flag clear no completion signal is emitted. An iteration
whose open fails only sleeps `waitPeriod`: it leaves the flag, the state and the handle as
they were, emits no completion signal and `Run` goes on. Hence once the flag is set, by
`Close` in particular, `Run` signals completion and returns in the first iteration in
which the device is open, after one sleep for each iteration whose open failed before. -/
theorem CubeDriver.Run_iteration_checks_terminating (c : CubeDriver)
    (opened : Except Error Cube) (hopen : c.c.isSome = true ∨ opened.isOk = true) :
    (CubeDriver.Run.iteration opened c).2.2 = c.terminating ∧
    (c.terminating = true →
      (CubeDriver.Run.iteration opened c).2.1 =
        [Event.dev DevCmd.Off, Event.dev DevCmd.Close, Event.terminated]) ∧
    (c.terminating = false → Event.terminated ∉ (CubeDriver.Run.iteration opened c).2.1) ∧
    (CubeDriver.Run.iteration opened c.Close.1).2 =
      ([Event.dev DevCmd.Off, Event.dev DevCmd.Close, Event.terminated], true) ∧
    (∀ (d : CubeDriver) (e : Error), d.c = none →
      CubeDriver.Run.iteration (Except.error e) d = (d, [Event.sleep waitPeriod], false)) ∧
    (∀ (errs : List Error) (rest : List (Except Error Cube)), c.terminating = true →
      (CubeDriver.Run (failedOpens errs ++ opened :: rest) c).2 =
        ((if c.c.isSome = true then []
          else List.replicate errs.length (Event.sleep waitPeriod)) ++
          [Event.dev DevCmd.Off, Event.dev DevCmd.Close, Event.terminated], true)) ∧
    (∀ (errs : List Error) (rest : List (Except Error Cube)),
      (CubeDriver.Run (failedOpens errs ++ opened :: rest) c.Close.1).2 =
        ((if c.c.isSome = true then []
          else List.replicate errs.length (Event.sleep waitPeriod)) ++
          [Event.dev DevCmd.Off, Event.dev DevCmd.Close, Event.terminated], true)) := by
  have general : ∀ (b : CubeDriver), (b.c.isSome = true ∨ opened.isOk = true) →
      b.terminating = true → ∀ (errs : List Error) (rest : List (Except Error Cube)),
      (CubeDriver.Run (failedOpens errs ++ opened :: rest) b).2 =
        ((if b.c.isSome = true then []
          else List.replicate errs.length (Event.sleep waitPeriod)) ++
          [Event.dev DevCmd.Off, Event.dev DevCmd.Close, Event.terminated], true) := by
    intro b hb ht errs rest
    cases hbc : b.c with
    | none =>
      rw [CubeDriver.Run_failedOpens errs (opened :: rest) b hbc,
        CubeDriver.Run_terminating opened rest b hb ht]
      simp
    | some drv =>
      have hs : b.c.isSome = true := by rw [hbc]; rfl
      cases errs with
      | nil =>
        simpa [failedOpens] using CubeDriver.Run_terminating opened rest b hb ht
      | cons e es =>
        have h := CubeDriver.Run_terminating (Except.error e) (failedOpens es ++ opened :: rest)
          b (Or.inl hs) ht
        simpa [failedOpens] using h
  obtain ⟨drv, hd⟩ := CubeDriver.Run.iteration_of_open opened c hopen
  have hopen2 : c.Close.1.c.isSome = true ∨ opened.isOk = true := by
    rw [CubeDriver.Close_fst]; exact hopen
  obtain ⟨drv2, hd2⟩ := CubeDriver.Run.iteration_of_open opened c.Close.1 hopen2
  refine ⟨?_, ?_, ?_, ?_, ?_, ?_, ?_⟩
  · rw [hd]
    by_cases ht : c.terminating = true
    · simp [CubeDriver.Run.render, ht]
    · have hf : c.terminating = false := by simpa using ht
      rw [(CubeDriver.Run.render_running { c with c := some drv } hf).2.1, hf]
  · intro ht
    rw [hd]
    simp [CubeDriver.Run.render, ht]
  · intro ht
    rw [hd]
    unfold CubeDriver.Run.render
    simp only [ht, Bool.false_eq_true, if_false]
    split_ifs <;> simp
  · rw [hd2]
    simp [CubeDriver.Run.render, CubeDriver.Close_fst]
  · intro d e hdc
    simp [CubeDriver.Run.iteration, hdc]
  · intro errs rest ht
    exact general c hopen ht errs rest
  · intro errs rest
    have h := general c.Close.1 hopen2 (by rw [CubeDriver.Close_fst]) errs rest
    have hcc : c.Close.1.c = c.c := by rw [CubeDriver.Close_fst]
    rw [hcc] at h
    exact h

/-- C9 amended, at a concrete input: a new driver is closed, the device open fails twice
and succeeds in the third iteration. -/
theorem CubeDriver.Run_iteration_checks_terminating_witness :
    (CubeDriver.Run
      [Except.error "no cube", Except.error "no cube", Except.ok ⟨"COM3"⟩, Except.error "gone"]
      (NewCubeDriver exampleConfig).Close.1).2 =
      ([Event.sleep waitPeriod, Event.sleep waitPeriod,
        Event.dev DevCmd.Off, Event.dev DevCmd.Close, Event.terminated], true) :=
  (CubeDriver.Run_iteration_checks_terminating (NewCubeDriver exampleConfig)
    (Except.ok ⟨"COM3"⟩) (Or.inr rfl)).2.2.2.2.2.2
    ["no cube", "no cube"] [Except.error "gone"]

/-- C10: in one iteration of `Run` with the device open (handle already set, or opened in
that iteration) and the terminating flag clear, the device commands are `[Green, Off]` in
state `GREEN`, `[Red, Off]` in state `RED` and `[Off]` for every other value; they end
with `Off`; the desired state and the flag are unchanged and `Run` does not return; and
any number of such iterations in a row issue that many copies of the same commands. -/
theorem CubeDriver.Run_iteration_blinks (c : CubeDriver) (opened : Except Error Cube)
    (hopen : c.c.isSome = true ∨ opened.isOk = true) (hrun : c.terminating = false) :
    deviceCommands (CubeDriver.Run.iteration opened c).2.1 =
      (if c.state = GREEN then [DevCmd.Green, DevCmd.Off]
       else if c.state = RED then [DevCmd.Red, DevCmd.Off] else [DevCmd.Off]) ∧
    (deviceCommands (CubeDriver.Run.iteration opened c).2.1).getLast? = some DevCmd.Off ∧
    (CubeDriver.Run.iteration opened c).1.state = c.state ∧
    (CubeDriver.Run.iteration opened c).1.terminating = false ∧
    (CubeDriver.Run.iteration opened c).2.2 = false ∧
    (∀ more : List (Except Error Cube),
      deviceCommands (CubeDriver.Run (opened :: more) c).2.1 =
        (List.replicate (more.length + 1)
          (if c.state = GREEN then [DevCmd.Green, DevCmd.Off]
           else if c.state = RED then [DevCmd.Red, DevCmd.Off] else [DevCmd.Off])).flatten ∧
      (CubeDriver.Run (opened :: more) c).1.state = c.state ∧
      (CubeDriver.Run (opened :: more) c).2.2 = false) := by
  obtain ⟨drv, hd⟩ := CubeDriver.Run.iteration_of_open opened c hopen
  obtain ⟨h1, h2, h3⟩ := CubeDriver.Run.render_running { c with c := some drv } hrun
  rw [hd, h1, h2, h3]
  refine ⟨rfl, ?_, rfl, hrun, rfl, ?_⟩
  · show List.getLast? (if c.state = GREEN then _ else _) = _
    split_ifs <;> rfl
  · intro more
    obtain ⟨r1, r2, r3⟩ := CubeDriver.Run_running more { c with c := some drv } drv rfl hrun
    simp only [CubeDriver.Run, hd, h2, h1, Bool.false_eq_true, if_false, r1, r2, and_true]
    rw [deviceCommands_append, h3, r3]
    simp [List.replicate_succ]

/-- C10, at a concrete input: three iterations in state `GREEN`, the device opening in the
first one. -/
theorem CubeDriver.Run_iteration_blinks_witness :
    deviceCommands (CubeDriver.Run [Except.ok ⟨"COM3"⟩, Except.error "x", Except.error "x"]
      ((NewCubeDriver exampleConfig).Set GREEN).1).2.1 =
      [DevCmd.Green, DevCmd.Off, DevCmd.Green, DevCmd.Off, DevCmd.Green, DevCmd.Off] :=
  ((CubeDriver.Run_iteration_blinks ((NewCubeDriver exampleConfig).Set GREEN).1
    (Except.ok ⟨"COM3"⟩) (Or.inr rfl) rfl).2.2.2.2.2
      [Except.error "x", Except.error "x"]).1.trans (by decide)

/-! ## Lemmas on the mailbox monitor -/

theorem QueryUnreadCount.loop_lt (rs : List Response) (count : Nat) (h : count < 2 ^ 32) :
    QueryUnreadCount.loop rs count < 2 ^ 32 := by
  induction rs generalizing count with
  | nil => exact h
  | cons r rs ih =>
    unfold QueryUnreadCount.loop
    cases r.MailboxStatus with
    | none => exact ih count h
    | some st => exact ih _ (Nat.mod_lt _ (by decide))

theorem QueryUnreadCount.loop_mod (rs : List Response) (count : Nat) :
    QueryUnreadCount.loop rs count % 2 ^ 32 = (count + unseenSum rs) % 2 ^ 32 := by
  induction rs generalizing count with
  | nil => simp [QueryUnreadCount.loop, unseenSum]
  | cons r rs ih =>
    unfold QueryUnreadCount.loop unseenSum
    cases r.MailboxStatus with
    | none => exact ih count
    | some st =>
      simp only
      rw [ih, Nat.mod_add_mod, Nat.add_assoc]

theorem QueryUnreadCount.loop_zero (rs : List Response) :
    QueryUnreadCount.loop rs 0 = unseenSum rs % 2 ^ 32 := by
  have h := QueryUnreadCount.loop_mod rs 0
  rw [Nat.mod_eq_of_lt (QueryUnreadCount.loop_lt rs 0 (by decide)), Nat.zero_add] at h
  exact h

theorem unreadLines_append (xs ys : List Event) :
    unreadLines (xs ++ ys) = unreadLines xs + unreadLines ys := by
  induction xs with
  | nil => simp [unreadLines]
  | cons x xs ih =>
    cases x with
    | print l =>
      cases l <;> simp [unreadLines, ih]
      omega
    | _ => simp [unreadLines, ih]

theorem unreadLines_of_quiet (xs : List Event)
    (h : ∀ e ∈ xs, e.isQuiet = true ∨ ∃ s, e = Event.print (Line.cubeNow s)) :
    unreadLines xs = 0 := by
  induction xs with
  | nil => rfl
  | cons x xs ih =>
    have hx := h x (List.mem_cons_self _ _)
    have hxs := ih fun e he => h e (List.mem_cons_of_mem _ he)
    cases x with
    | print l =>
      cases l with
      | unread n => simp [Event.isQuiet] at hx
      | _ => simp [unreadLines, hxs]
    | _ => simp [unreadLines, hxs]

theorem check_quiet (r : CmdResult) : ∀ e ∈ (check r).2, e.isQuiet = true := by
  unfold check
  cases r with
  | failed err => simp [Event.isQuiet]
  | sent cmd =>
    simp only
    cases cmd.result <;> simp [Event.isQuiet]

theorem CubeDriver.Set_events (d : CubeDriver) (s : CubeState) :
    ∀ e ∈ (d.Set s).2, e = Event.print (Line.cubeNow s) := by
  unfold CubeDriver.Set
  by_cases h : d.state = s
  · simp [h]
  · simp only [ne_eq, h, not_false_eq_true, if_true]
    intro e he
    split_ifs at he with h1 h2 h3
    · subst h1; simpa using he
    · subst h2; simpa using he
    · subst h3; simpa using he
    · simp at he

theorem MboxMonitor.Connect.login_spec (env : MailEnv) (m : MboxMonitor) (evs : List Event)
    (hevs : ∀ e ∈ evs, e.isQuiet = true) :
    (MboxMonitor.Connect.login env m evs).1 = m ∧
    ∀ e ∈ (MboxMonitor.Connect.login env m evs).2.2, e.isQuiet = true := by
  unfold MboxMonitor.Connect.login
  have hq := check_quiet env.login
  rcases hch : check env.login with ⟨_ | _, evs2⟩
  all_goals
    rw [hch] at hq
    refine ⟨rfl, ?_⟩
    intro e he
    simp only [List.mem_append, List.mem_cons, List.mem_singleton, List.not_mem_nil,
      or_false] at he
    rcases he with ((he | he) | he) | he
    · exact hevs e he
    · subst he; rfl
    · exact hq e he
    · first
        | (rcases he with he | he <;> subst he <;> rfl)
        | (subst he; rfl)

/-- What `Connect` leaves behind: only the client field changes, to the client of the
dial; without an error that client is non-nil; the events concern the mail server only. -/
theorem MboxMonitor.Connect_spec (env : MailEnv) (m : MboxMonitor) :
    (m.Connect env).1 = { m with client := (MboxMonitor.Connect.dial env m).client } ∧
    ((m.Connect env).2.1 = none → (m.Connect env).1.client.isSome = true) ∧
    ∀ e ∈ (m.Connect env).2.2, e.isQuiet = true := by
  unfold MboxMonitor.Connect
  cases hdial : MboxMonitor.Connect.dial env m with
  | fail c err => simp [DialResult.client, Event.isQuiet]
  | ok c =>
    simp only [DialResult.client]
    by_cases hcaps : c.Caps "STARTTLS" = true
    · simp only [hcaps, if_true]
      have hq := check_quiet env.startTLS
      rcases hch : check env.startTLS with ⟨_ | _, evs⟩
      · rw [hch] at hq
        refine ⟨rfl, by simp, ?_⟩
        intro e he
        simp only [List.mem_append, List.mem_singleton] at he
        rcases he with he | he
        · exact hq e he
        · subst he; rfl
      · rw [hch] at hq
        simp only
        obtain ⟨l1, l2⟩ := MboxMonitor.Connect.login_spec env { m with client := some c } evs hq
        exact ⟨l1, fun _ => by rw [l1]; rfl, l2⟩
    · simp only [hcaps, Bool.false_eq_true, if_false]
      obtain ⟨l1, l2⟩ := MboxMonitor.Connect.login_spec env { m with client := some c } []
        (by simp)
      exact ⟨l1, fun _ => by rw [l1]; rfl, l2⟩

theorem QueryUnreadCount.onClient_quiet (status : CmdResult) :
    ∀ e ∈ (QueryUnreadCount.onClient status).2, e.isQuiet = true := by
  have hq := check_quiet status
  unfold QueryUnreadCount.onClient
  rcases hch : check status with ⟨_ | _, evs⟩ <;> rw [hch] at hq <;> exact hq

theorem CubeDriver.Set_unreadLines (d : CubeDriver) (s : CubeState) :
    unreadLines (d.Set s).2 = 0 :=
  unreadLines_of_quiet _ fun e he => Or.inr ⟨s, CubeDriver.Set_events d s e he⟩

/-- Method `RunOnce` from the query on, when the query succeeds with `count`. -/
theorem MboxMonitor.RunOnce.poll_ok (env : MailEnv) (m : MboxMonitor) (cl : Client)
    (d : CubeDriver) (count : Nat) (hcl : m.client = some cl) (hd : m.driver = some d)
    (hq : (QueryUnreadCount.onClient env.status).1 = .ok count) :
    ∃ evs, MboxMonitor.RunOnce.poll env m =
        some ({ m with prevCount := count,
                       driver := some (d.Set (MboxMonitor.RunOnce.derive m.config count)).1 },
              evs) ∧
      unreadLines evs = (if m.prevCount ≠ count then 1 else 0) := by
  have hquiet := QueryUnreadCount.onClient_quiet env.status
  unfold MboxMonitor.RunOnce.poll MboxMonitor.QueryUnreadCount
  rcases hoc : QueryUnreadCount.onClient env.status with ⟨r, evs0⟩
  rw [hoc] at hq hquiet
  simp only at hq hquiet
  subst hq
  simp only [hcl]
  have h0 : unreadLines evs0 = 0 := unreadLines_of_quiet _ fun e he => Or.inl (hquiet e he)
  by_cases hp : m.prevCount = count
  · simp only [ne_eq, hp, not_true_eq_false, if_false, hd]
    refine ⟨_, by rw [hcl], ?_⟩
    simp [unreadLines_append, h0, CubeDriver.Set_unreadLines, unreadLines]
  · simp only [ne_eq, hp, not_false_eq_true, if_true, hd]
    refine ⟨_, rfl, ?_⟩
    simp [unreadLines_append, h0, CubeDriver.Set_unreadLines, unreadLines]

/-- Method `RunOnce` from the query on, when the query fails. -/
theorem MboxMonitor.RunOnce.poll_error (env : MailEnv) (m : MboxMonitor) (cl : Client)
    (d : CubeDriver) (err : Error) (hcl : m.client = some cl) (hd : m.driver = some d)
    (hq : (QueryUnreadCount.onClient env.status).1 = .error err) :
    ∃ evs, MboxMonitor.RunOnce.poll env m =
        some ({ m with client := none, driver := some (d.Set OFF).1 }, evs) ∧
      Event.clientClose cl.id false ∈ evs ∧
      ∀ e ∈ evs, e.isQuiet = true ∨ e = Event.print (Line.cubeNow OFF) := by
  have hquiet := QueryUnreadCount.onClient_quiet env.status
  unfold MboxMonitor.RunOnce.poll MboxMonitor.QueryUnreadCount MboxMonitor.Disconnect
  rcases hoc : QueryUnreadCount.onClient env.status with ⟨r, evs0⟩
  rw [hoc] at hq hquiet
  simp only at hq hquiet
  subst hq
  simp only [hcl, hd]
  refine ⟨_, rfl, by simp, ?_⟩
  intro e he
  simp only [List.mem_append, List.mem_singleton] at he
  rcases he with ((he | he) | (he | he)) | he
  · exact Or.inl (hquiet e he)
  · subst he; exact Or.inl rfl
  · exact Or.inr (CubeDriver.Set_events d OFF e he)
  · subst he; exact Or.inl rfl
  · subst he; exact Or.inl rfl

/-- Method `RunOnce` when the monitor is connected or `Connect` succeeds, and the query
succeeds with `count`. -/
theorem MboxMonitor.RunOnce_ok (env : MailEnv) (m : MboxMonitor) (d : CubeDriver) (count : Nat)
    (hd : m.driver = some d) (hconn : m.client = none → (m.Connect env).2.1 = none)
    (hq : (QueryUnreadCount.onClient env.status).1 = .ok count) :
    ∃ cl evs, m.RunOnce env =
        some ({ m with client := some cl, prevCount := count,
                       driver := some (d.Set (MboxMonitor.RunOnce.derive m.config count)).1 },
              evs) ∧
      unreadLines evs = (if m.prevCount ≠ count then 1 else 0) := by
  unfold MboxMonitor.RunOnce
  cases hcl : m.client with
  | some cl =>
    obtain ⟨evs, h1, h2⟩ := MboxMonitor.RunOnce.poll_ok env m cl d count hcl hd hq
    refine ⟨cl, evs, ?_, h2⟩
    simp only [h1]
    congr 3
  | none =>
    obtain ⟨c1, c2, c3⟩ := MboxMonitor.Connect_spec env m
    have hnone := hconn hcl
    have hsome := c2 hnone
    obtain ⟨cl, hcl2⟩ := Option.isSome_iff_exists.mp hsome
    have hd2 : (m.Connect env).1.driver = some d := by rw [c1]; exact hd
    obtain ⟨evs, h1, h2⟩ := MboxMonitor.RunOnce.poll_ok env (m.Connect env).1 cl d count hcl2 hd2 hq
    have hcfg : (m.Connect env).1.config = m.config := by rw [c1]
    have hprev : (m.Connect env).1.prevCount = m.prevCount := by rw [c1]
    simp only [hnone, h1]
    refine ⟨cl, [Event.print (Line.connecting m.config.Addr)] ++ (m.Connect env).2.2 ++
      [Event.print Line.connected] ++ evs, ?_, ?_⟩
    · rw [hcfg, hcl2]
    · have h0 : unreadLines (m.Connect env).2.2 = 0 :=
        unreadLines_of_quiet _ fun e he => Or.inl (c3 e he)
      simp [unreadLines_append, h0, unreadLines, h2, hprev]

/-- Method `RunOnce` when the monitor is connected or `Connect` succeeds, and the query
fails. -/
theorem MboxMonitor.RunOnce_query_error (env : MailEnv) (m : MboxMonitor) (d : CubeDriver)
    (err : Error) (hd : m.driver = some d)
    (hconn : m.client = none → (m.Connect env).2.1 = none)
    (hq : (QueryUnreadCount.onClient env.status).1 = .error err) :
    ∃ evs, m.RunOnce env = some ({ m with client := none, driver := some (d.Set OFF).1 }, evs) ∧
      ∀ e ∈ evs, e.isQuiet = true ∨ e = Event.print (Line.cubeNow OFF) := by
  unfold MboxMonitor.RunOnce
  cases hcl : m.client with
  | some cl =>
    obtain ⟨evs, h1, _, h3⟩ := MboxMonitor.RunOnce.poll_error env m cl d err hcl hd hq
    exact ⟨evs, h1, h3⟩
  | none =>
    obtain ⟨c1, c2, c3⟩ := MboxMonitor.Connect_spec env m
    have hnone := hconn hcl
    obtain ⟨cl, hcl2⟩ := Option.isSome_iff_exists.mp (c2 hnone)
    have hd2 : (m.Connect env).1.driver = some d := by rw [c1]; exact hd
    obtain ⟨evs, h1, _, h3⟩ :=
      MboxMonitor.RunOnce.poll_error env (m.Connect env).1 cl d err hcl2 hd2 hq
    have hcfg : (m.Connect env).1.config = m.config := by rw [c1]
    have hprev : (m.Connect env).1.prevCount = m.prevCount := by rw [c1]
    simp only [hnone, h1]
    refine ⟨[Event.print (Line.connecting m.config.Addr)] ++ (m.Connect env).2.2 ++
      [Event.print Line.connected] ++ evs, ?_, ?_⟩
    · rw [hcfg, hprev]
    · intro e he
      simp only [List.mem_append, List.mem_singleton] at he
      rcases he with ((he | he) | he) | he
      · subst he; exact Or.inl rfl
      · exact Or.inl (c3 e he)
      · subst he; exact Or.inl rfl
      · exact h3 e he

/-- Method `RunOnce` when the monitor is not connected and `Connect` fails. -/
theorem MboxMonitor.RunOnce_connect_error (env : MailEnv) (m : MboxMonitor) (d : CubeDriver)
    (err : Error) (hd : m.driver = some d) (hcl : m.client = none)
    (herr : (m.Connect env).2.1 = some err) :
    ∃ evs, m.RunOnce env = some ({ m with client := none, driver := some (d.Set OFF).1 }, evs) ∧
      (∀ e ∈ evs, e.isQuiet = true ∨ e = Event.print (Line.cubeNow OFF)) ∧
      ∀ cl, (MboxMonitor.Connect.dial env m).client = some cl →
        Event.clientClose cl.id false ∈ evs := by
  obtain ⟨c1, _, c3⟩ := MboxMonitor.Connect_spec env m
  have hd2 : (m.Connect env).1.driver = some d := by rw [c1]; exact hd
  have hcl2 : (m.Connect env).1.client = (MboxMonitor.Connect.dial env m).client := by rw [c1]
  have hcfg : (m.Connect env).1.config = m.config := by rw [c1]
  have hprev : (m.Connect env).1.prevCount = m.prevCount := by rw [c1]
  unfold MboxMonitor.RunOnce MboxMonitor.Disconnect
  simp only [hcl, herr, hd2, hcfg, hprev]
  refine ⟨_, rfl, ?_, ?_⟩
  · intro e he
    simp only [List.mem_append, List.mem_singleton] at he
    rcases he with ((((he | he) | he) | (he | he))) | he
    · subst he; exact Or.inl rfl
    · exact Or.inl (c3 e he)
    · subst he; exact Or.inl rfl
    · exact Or.inr (CubeDriver.Set_events d OFF e he)
    · cases hc : (m.Connect env).1.client with
      | none => rw [hc] at he; simp at he
      | some cl => rw [hc] at he; simp at he; subst he; exact Or.inl rfl
    · subst he; exact Or.inl rfl
  · intro cl hdial
    rw [hcl2, hdial]
    simp

theorem not_mem_of_quiet_or_off (evs : List Event)
    (h : ∀ e ∈ evs, e.isQuiet = true ∨ e = Event.print (Line.cubeNow OFF)) :
    Event.print (Line.cubeNow GREEN) ∉ evs ∧ Event.print (Line.cubeNow RED) ∉ evs ∧
    unreadLines evs = 0 := by
  refine ⟨fun hm => ?_, fun hm => ?_, ?_⟩
  · rcases h _ hm with h1 | h1
    · simp [Event.isQuiet] at h1
    · simp at h1
  · rcases h _ hm with h1 | h1
    · simp [Event.isQuiet] at h1
    · simp at h1
  · exact unreadLines_of_quiet _ fun e he => (h e he).imp id fun h2 => ⟨OFF, h2⟩

theorem MboxMonitor.RunOnce.derive_cases (config : Config) (c : Nat) :
    (MboxMonitor.RunOnce.derive config c = RED ↔ c > config.RedIfMore) ∧
    (MboxMonitor.RunOnce.derive config c = GREEN ↔
      ¬ c > config.RedIfMore ∧ c > config.GreenIfMore) ∧
    (MboxMonitor.RunOnce.derive config c = OFF ↔
      ¬ c > config.RedIfMore ∧ ¬ c > config.GreenIfMore) := by
  unfold MboxMonitor.RunOnce.derive
  by_cases hr : c > config.RedIfMore
  · simp [hr]
  · by_cases hg : c > config.GreenIfMore
    · simp [hr, hg]
    · simp [hr, hg]

/-- The desired state after a successful `RunOnce` is the derived one. -/
theorem MboxMonitor.RunOnce_desired (env : MailEnv) (m : MboxMonitor) (d : CubeDriver) (c : Nat)
    (hd : m.driver = some d) (hconn : m.client = none → (m.Connect env).2.1 = none)
    (hq : (QueryUnreadCount.onClient env.status).1 = .ok c) :
    desiredAfter (m.RunOnce env) = some (MboxMonitor.RunOnce.derive m.config c) := by
  obtain ⟨cl, evs, h1, _⟩ := MboxMonitor.RunOnce_ok env m d c hd hconn hq
  rw [h1]
  simp [desiredAfter, MboxMonitor.desired, CubeDriver.Set_fst]

/-! ## Claims on the mailbox monitor -/

/-- C1: when `RunOnce` runs with a controller, is connected or connects, and its query
succeeds with count `c`, it calls `Set` with the derived state and the desired state
afterwards is `RED` if and only if `c > RedIfMore`, `GREEN` if and only if that fails and
`c > GreenIfMore`, and `OFF` if and only if both fail, whatever the two thresholds are;
`c = RedIfMore` is not `RED`; and `RedIfMore = 2`, `GreenIfMore = 10`, `c = 11` is `RED`. -/
theorem MboxMonitor.RunOnce_pushes_threshold_state (env : MailEnv) (m : MboxMonitor)
    (d : CubeDriver) (c : Nat) (hd : m.driver = some d)
    (hconn : m.client = none → (m.Connect env).2.1 = none)
    (hq : (QueryUnreadCount.onClient env.status).1 = .ok c) :
    (∃ m2 evs, m.RunOnce env = some (m2, evs) ∧
      m2.driver = some (d.Set (MboxMonitor.RunOnce.derive m.config c)).1) ∧
    (desiredAfter (m.RunOnce env) = some RED ↔ c > m.config.RedIfMore) ∧
    (desiredAfter (m.RunOnce env) = some GREEN ↔
      ¬ c > m.config.RedIfMore ∧ c > m.config.GreenIfMore) ∧
    (desiredAfter (m.RunOnce env) = some OFF ↔
      ¬ c > m.config.RedIfMore ∧ ¬ c > m.config.GreenIfMore) ∧
    (c = m.config.RedIfMore → desiredAfter (m.RunOnce env) ≠ some RED) ∧
    (m.config.RedIfMore = 2 → m.config.GreenIfMore = 10 → c = 11 →
      desiredAfter (m.RunOnce env) = some RED) := by
  obtain ⟨cl, evs, h1, _⟩ := MboxMonitor.RunOnce_ok env m d c hd hconn hq
  have hdes := MboxMonitor.RunOnce_desired env m d c hd hconn hq
  obtain ⟨k1, k2, k3⟩ := MboxMonitor.RunOnce.derive_cases m.config c
  rw [hdes]
  simp only [Option.some.injEq, ne_eq]
  refine ⟨⟨_, evs, h1, rfl⟩, k1, k2, k3, ?_, ?_⟩
  · intro hc
    rw [k1]
    omega
  · intro h2 h10 h11
    rw [k1]
    omega

/-- C1, at a concrete input: thresholds `RedIfMore = 2`, `GreenIfMore = 10`, count 11. -/
theorem MboxMonitor.RunOnce_pushes_threshold_state_witness :
    desiredAfter ((connectedMonitor { exampleConfig with RedIfMore := 2 }).RunOnce
      (exampleEnv (statusOf [11]))) = some RED :=
  (MboxMonitor.RunOnce_pushes_threshold_state (exampleEnv (statusOf [11]))
    (connectedMonitor { exampleConfig with RedIfMore := 2 })
    (NewCubeDriver { exampleConfig with RedIfMore := 2 }) 11 rfl
    (fun h => by cases h) rfl).2.2.2.2.2 rfl rfl rfl

/-- C2, refuted as stated: with `RedIfMore = 5` and `GreenIfMore = 10` the counts 6 and 10
leave the desired state `RED`, not `GREEN`. -/
theorem MboxMonitor.RunOnce_red_5_green_10_counts_6_10 :
    desiredAfter ((connectedMonitor exampleConfig).RunOnce (exampleEnv (statusOf [6])))
      = some RED ∧
    desiredAfter ((connectedMonitor exampleConfig).RunOnce (exampleEnv (statusOf [10])))
      = some RED ∧
    exampleConfig.RedIfMore = 5 ∧ exampleConfig.GreenIfMore = 10 ∧ RED ≠ GREEN := by
  decide

/-- C2, amended: with `RedIfMore = 5` and `GreenIfMore = 10` the counts 0, 5, 6, 10, 11
give `OFF`, `OFF`, `RED`, `RED`, `RED`; the sequence `OFF`, `OFF`, `GREEN`, `GREEN`, `RED`
is what the thresholds the other way round, `GreenIfMore = 5` and `RedIfMore = 10`, give. -/
theorem MboxMonitor.RunOnce_thresholds_5_10 (env : MailEnv) (m : MboxMonitor)
    (d : CubeDriver) (c : Nat) (hd : m.driver = some d)
    (hconn : m.client = none → (m.Connect env).2.1 = none)
    (hq : (QueryUnreadCount.onClient env.status).1 = .ok c) :
    (m.config.RedIfMore = 5 → m.config.GreenIfMore = 10 →
      (c = 0 → desiredAfter (m.RunOnce env) = some OFF) ∧
      (c = 5 → desiredAfter (m.RunOnce env) = some OFF) ∧
      (c = 6 → desiredAfter (m.RunOnce env) = some RED) ∧
      (c = 10 → desiredAfter (m.RunOnce env) = some RED) ∧
      (c = 11 → desiredAfter (m.RunOnce env) = some RED)) ∧
    (m.config.GreenIfMore = 5 → m.config.RedIfMore = 10 →
      (c = 0 → desiredAfter (m.RunOnce env) = some OFF) ∧
      (c = 5 → desiredAfter (m.RunOnce env) = some OFF) ∧
      (c = 6 → desiredAfter (m.RunOnce env) = some GREEN) ∧
      (c = 10 → desiredAfter (m.RunOnce env) = some GREEN) ∧
      (c = 11 → desiredAfter (m.RunOnce env) = some RED)) := by
  rw [MboxMonitor.RunOnce_desired env m d c hd hconn hq]
  unfold MboxMonitor.RunOnce.derive
  constructor
  · intro h5 h10
    rw [h5, h10]
    refine ⟨?_, ?_, ?_, ?_, ?_⟩ <;> intro hc <;> subst hc <;> rfl
  · intro h5 h10
    rw [h5, h10]
    refine ⟨?_, ?_, ?_, ?_, ?_⟩ <;> intro hc <;> subst hc <;> rfl

/-- C2 amended, at a concrete input: thresholds 5 and 10 as stated, count 6. -/
theorem MboxMonitor.RunOnce_thresholds_5_10_witness :
    desiredAfter ((connectedMonitor exampleConfig).RunOnce (exampleEnv (statusOf [6])))
      = some RED :=
  ((MboxMonitor.RunOnce_thresholds_5_10 (exampleEnv (statusOf [6]))
    (connectedMonitor exampleConfig) (NewCubeDriver exampleConfig) 6 rfl
    (fun h => by cases h) rfl).1 rfl rfl).2.2.1 rfl

/-- C3, refuted as stated: two status records with 2147483648 unseen messages each, whose
sum is 4294967296, make `QueryUnreadCount` return 0 without error. -/
theorem MboxMonitor.QueryUnreadCount_wraps :
    (connectedMonitor exampleConfig).QueryUnreadCount (statusOf [2147483648, 2147483648])
      = some (.ok 0, []) ∧
    unseenSum (statusRecords [2147483648, 2147483648]) = 4294967296 :=
  ⟨rfl, by decide⟩

/-- C3, amended: on a connected monitor, for every list of responses of a successful
status request, `QueryUnreadCount` returns without error the sum of the unseen counts of
the status records modulo 2^32, which is the sum itself whenever the sum is below 2^32;
for an empty list it returns 0. -/
theorem MboxMonitor.QueryUnreadCount_sum_mod (m : MboxMonitor) (cl : Client) (cmd : Command)
    (hcl : m.client = some cl) (hok : cmd.result = none) :
    m.QueryUnreadCount (.sent cmd) = some (.ok (unseenSum cmd.Data % 2 ^ 32), []) ∧
    (unseenSum cmd.Data < 2 ^ 32 →
      m.QueryUnreadCount (.sent cmd) = some (.ok (unseenSum cmd.Data), [])) ∧
    (cmd.Data = [] → m.QueryUnreadCount (.sent cmd) = some (.ok 0, [])) := by
  have h : m.QueryUnreadCount (.sent cmd) = some (.ok (unseenSum cmd.Data % 2 ^ 32), []) := by
    simp only [MboxMonitor.QueryUnreadCount, hcl, QueryUnreadCount.onClient, check, hok,
      QueryUnreadCount.loop_zero]
  refine ⟨h, fun hlt => ?_, fun he => ?_⟩
  · rw [h, Nat.mod_eq_of_lt hlt]
  · rw [h, he]; rfl

/-- C3 amended, at a concrete input: three status records with 3, 0 and 4 unseen. -/
theorem MboxMonitor.QueryUnreadCount_sum_mod_witness :
    (connectedMonitor exampleConfig).QueryUnreadCount (statusOf [3, 0, 4]) = some (.ok 7, []) :=
  (MboxMonitor.QueryUnreadCount_sum_mod (connectedMonitor exampleConfig) exampleClient
    { result := none, Data := statusRecords [3, 0, 4] } rfl rfl).2.1 (by decide)

/-- C4: when `RunOnce` runs with a controller and its connect fails, or it is connected
or connects and its query fails, then afterwards the client is nil, the controller is the
one left by `Set(OFF)` and so has desired state `OFF` whatever it was before, the
last-seen count is unchanged, and no `GREEN` or `RED` transition and no unread-count line
is among the events of that iteration. -/
theorem MboxMonitor.RunOnce_failure_disconnects (env : MailEnv) (m : MboxMonitor)
    (d : CubeDriver) (err : Error) (hd : m.driver = some d)
    (hfail : (m.client = none ∧ (m.Connect env).2.1 = some err) ∨
      ((m.client = none → (m.Connect env).2.1 = none) ∧
        (QueryUnreadCount.onClient env.status).1 = .error err)) :
    ∃ m2 evs, m.RunOnce env = some (m2, evs) ∧
      m2.client = none ∧ m2.driver = some (d.Set OFF).1 ∧ m2.desired = some OFF ∧
      m2.prevCount = m.prevCount ∧
      Event.print (Line.cubeNow GREEN) ∉ evs ∧ Event.print (Line.cubeNow RED) ∉ evs ∧
      unreadLines evs = 0 := by
  have key : ∃ evs, m.RunOnce env =
        some ({ m with client := none, driver := some (d.Set OFF).1 }, evs) ∧
      ∀ e ∈ evs, e.isQuiet = true ∨ e = Event.print (Line.cubeNow OFF) := by
    rcases hfail with ⟨hcl, herr⟩ | ⟨hconn, hq⟩
    · obtain ⟨evs, h1, h2, _⟩ := MboxMonitor.RunOnce_connect_error env m d err hd hcl herr
      exact ⟨evs, h1, h2⟩
    · exact MboxMonitor.RunOnce_query_error env m d err hd hconn hq
  obtain ⟨evs, h1, h2⟩ := key
  obtain ⟨n1, n2, n3⟩ := not_mem_of_quiet_or_off evs h2
  refine ⟨_, evs, h1, rfl, rfl, ?_, rfl, n1, n2, n3⟩
  simp [MboxMonitor.desired, CubeDriver.Set_fst]

/-- C4, at a concrete input: a connected monitor showing `RED` whose status request fails. -/
theorem MboxMonitor.RunOnce_failure_disconnects_witness :
    desiredAfter (MboxMonitor.RunOnce (exampleEnv (.failed "EOF"))
      { config := exampleConfig, client := some exampleClient,
        driver := some ((NewCubeDriver exampleConfig).Set RED).1, prevCount := 7 })
      = some OFF := by
  obtain ⟨m2, evs, h1, _, _, h4, _⟩ :=
    MboxMonitor.RunOnce_failure_disconnects (exampleEnv (.failed "EOF"))
      { config := exampleConfig, client := some exampleClient,
        driver := some ((NewCubeDriver exampleConfig).Set RED).1, prevCount := 7 }
      ((NewCubeDriver exampleConfig).Set RED).1 "EOF" rfl
      (Or.inr ⟨nofun, rfl⟩)
  rw [h1]
  exact h4

/-- C5, refuted as stated: when the login is rejected, `Connect` returns the error and the
client field of the monitor holds the dialled client, not nil. -/
theorem MboxMonitor.Connect_login_failure_keeps_client :
    ((NewMboxMonitor exampleConfig).Connect rejectingEnv).2.1 = some "NO login" ∧
    ((NewMboxMonitor exampleConfig).Connect rejectingEnv).1.client.isSome = true := by
  decide

/-- C5, amended: when `Connect` returns an error, the client field of the monitor is the
client pointer the dial returned: on a dial failure the pointer that came with the dial
error (nil when the dial returned none), and on a STARTTLS failure or a login failure the
dialled client, not nil. -/
theorem MboxMonitor.Connect_error_client (env : MailEnv) (m : MboxMonitor) (err : Error)
    (herr : (m.Connect env).2.1 = some err) :
    (m.Connect env).1.client = (MboxMonitor.Connect.dial env m).client ∧
    (∀ c e, MboxMonitor.Connect.dial env m = .fail c e →
      (m.Connect env).1.client = c ∧ err = e) ∧
    (∀ c, MboxMonitor.Connect.dial env m = .ok c →
      (m.Connect env).1.client = some c ∧
      ((c.Caps "STARTTLS" = true ∧ (check env.startTLS).1 = .error err) ∨
        (check env.login).1 = .error err)) := by
  obtain ⟨c1, _, _⟩ := MboxMonitor.Connect_spec env m
  have hc : (m.Connect env).1.client = (MboxMonitor.Connect.dial env m).client := by rw [c1]
  refine ⟨hc, fun c e hdial => ⟨by rw [hc, hdial]; rfl, ?_⟩,
    fun c hdial => ⟨by rw [hc, hdial]; rfl, ?_⟩⟩
  · unfold MboxMonitor.Connect at herr
    rw [hdial] at herr
    simpa using herr.symm
  · have hlogin : ∀ m1 evs, (MboxMonitor.Connect.login env m1 evs).2.1 = some err →
        (check env.login).1 = .error err := by
      intro m1 evs h
      unfold MboxMonitor.Connect.login at h
      rcases hch : check env.login with ⟨_ | _, evs2⟩
      · rw [hch] at h
        simp only [Option.some.injEq] at h
        rw [h]
      · rw [hch] at h
        simp at h
    unfold MboxMonitor.Connect at herr
    rw [hdial] at herr
    by_cases hcaps : c.Caps "STARTTLS" = true
    · simp only [hcaps, if_true] at herr
      rcases hch : check env.startTLS with ⟨_ | _, evs⟩
      · rw [hch] at herr
        simp only [Option.some.injEq] at herr
        exact Or.inl ⟨hcaps, by rw [herr]⟩
      · rw [hch] at herr
        exact Or.inr (hlogin _ _ herr)
    · simp only [hcaps, Bool.false_eq_true, if_false] at herr
      exact Or.inr (hlogin _ _ herr)

/-- C5 amended, at a concrete input: the login is rejected and the client field holds the
dialled client when `Connect` returns. -/
theorem MboxMonitor.Connect_error_client_witness :
    ((NewMboxMonitor exampleConfig).Connect rejectingEnv).1.client.isSome = true :=
  (MboxMonitor.Connect_error_client rejectingEnv (NewMboxMonitor exampleConfig)
    "NO login" (by decide)).1 ▸ (by decide)

/-- Further iterations of the monitor loop, connected, that observe the count already
stored in `prevCount`, print no unread-count line. -/
theorem MboxMonitor.Run.loop_same_count (envs : List MailEnv) (m : MboxMonitor) (cl : Client)
    (d : CubeDriver) (hcl : m.client = some cl) (hd : m.driver = some d)
    (hq : ∀ e ∈ envs, (QueryUnreadCount.onClient e.status).1 = .ok m.prevCount) :
    unreadLinesOf (MboxMonitor.Run.loop envs m) = some 0 := by
  induction envs generalizing m cl d with
  | nil => rfl
  | cons env envs ih =>
    have hconn : m.client = none → (m.Connect env).2.1 = none := by
      intro h; rw [hcl] at h; cases h
    obtain ⟨cl2, evs, h1, h2⟩ :=
      MboxMonitor.RunOnce_ok env m d m.prevCount hd hconn (hq env (List.mem_cons_self _ _))
    have hrest := ih
      { m with client := some cl2, prevCount := m.prevCount,
               driver := some (d.Set (MboxMonitor.RunOnce.derive m.config m.prevCount)).1 }
      cl2 _ rfl rfl fun e he => hq e (List.mem_cons_of_mem _ he)
    simp only [MboxMonitor.Run.loop, h1]
    cases hl : MboxMonitor.Run.loop envs
        { m with client := some cl2, prevCount := m.prevCount,
                 driver := some (d.Set (MboxMonitor.RunOnce.derive m.config m.prevCount)).1 } with
    | none => rw [hl] at hrest; simp [unreadLinesOf] at hrest
    | some r =>
      rw [hl] at hrest
      obtain ⟨m3, evs3⟩ := r
      simp only [unreadLinesOf, Option.some.injEq] at hrest ⊢
      simp [unreadLines_append, unreadLines, hrest, h2]

/-- C8, refuted as stated: a newly created monitor whose iterations all succeed and all
observe the count 0 prints no unread-count line, whether it runs one iteration or three. -/
theorem MboxMonitor.Run_loop_count_zero_silent :
    unreadLinesOf (MboxMonitor.Run.loop [exampleEnv (statusOf [])]
      (MboxMonitor.Run.start (NewMboxMonitor exampleConfig))) = some 0 ∧
    unreadLinesOf (MboxMonitor.Run.loop
      [exampleEnv (statusOf [0]), exampleEnv (statusOf [0]), exampleEnv (statusOf [0])]
      (MboxMonitor.Run.start (NewMboxMonitor exampleConfig))) = some 0 := by
  decide

/-- C8, amended: `n >= 1` consecutive successful iterations of a newly created monitor
that all observe the same count `c` print exactly one unread-count line in total when
`c` is not 0 and none when `c` is 0; and a successful iteration of any monitor prints one
unread-count line when the observed count differs from `prevCount` (the count observed by
the last successful iteration, 0 on a new monitor) and none when it equals it. -/
theorem MboxMonitor.Run_loop_same_count_lines (config : Config) (env : MailEnv)
    (more : List MailEnv) (c : Nat)
    (hconn : ((MboxMonitor.Run.start (NewMboxMonitor config)).Connect env).2.1 = none)
    (hq : ∀ e ∈ env :: more, (QueryUnreadCount.onClient e.status).1 = .ok c) :
    unreadLinesOf (MboxMonitor.Run.loop (env :: more)
      (MboxMonitor.Run.start (NewMboxMonitor config))) = some (if c = 0 then 0 else 1) ∧
    ∀ (m : MboxMonitor) (d : CubeDriver) (e : MailEnv) (k : Nat), m.driver = some d →
      (m.client = none → (m.Connect e).2.1 = none) →
      (QueryUnreadCount.onClient e.status).1 = .ok k →
      unreadLinesOf (m.RunOnce e) = some (if m.prevCount ≠ k then 1 else 0) ∧
      ∃ m2 evs, m.RunOnce e = some (m2, evs) ∧ m2.prevCount = k := by
  constructor
  · obtain ⟨cl, evs, h1, h2⟩ :=
      MboxMonitor.RunOnce_ok env (MboxMonitor.Run.start (NewMboxMonitor config))
        (NewCubeDriver config) c rfl (fun _ => hconn) (hq env (List.mem_cons_self _ _))
    have hrest := MboxMonitor.Run.loop_same_count more
      { MboxMonitor.Run.start (NewMboxMonitor config) with
          client := some cl, prevCount := c,
          driver := some ((NewCubeDriver config).Set (MboxMonitor.RunOnce.derive
            (MboxMonitor.Run.start (NewMboxMonitor config)).config c)).1 }
      cl _ rfl rfl fun e he => hq e (List.mem_cons_of_mem _ he)
    simp only [MboxMonitor.Run.loop, h1]
    cases hl : MboxMonitor.Run.loop more
      { MboxMonitor.Run.start (NewMboxMonitor config) with
          client := some cl, prevCount := c,
          driver := some ((NewCubeDriver config).Set (MboxMonitor.RunOnce.derive
            (MboxMonitor.Run.start (NewMboxMonitor config)).config c)).1 } with
    | none => rw [hl] at hrest; simp [unreadLinesOf] at hrest
    | some r =>
      rw [hl] at hrest
      obtain ⟨m3, evs3⟩ := r
      simp only [unreadLinesOf, Option.some.injEq] at hrest ⊢
      have hp : (MboxMonitor.Run.start (NewMboxMonitor config)).prevCount = 0 := rfl
      rw [hp] at h2
      simp only [unreadLines_append, unreadLines, hrest, h2]
      by_cases hc : c = 0
      · subst hc; simp
      · have hc2 : ¬ 0 = c := fun h => hc h.symm
        simp [hc, hc2]
  · intro m d e k hd hc hk
    obtain ⟨cl, evs, h1, h2⟩ := MboxMonitor.RunOnce_ok e m d k hd hc hk
    rw [h1]
    exact ⟨by simp [unreadLinesOf, h2], _, evs, rfl, rfl⟩

/-- C8 amended, at a concrete input: three iterations that all observe four unread. -/
theorem MboxMonitor.Run_loop_same_count_lines_witness :
    unreadLinesOf (MboxMonitor.Run.loop
      [exampleEnv (statusOf [4]), exampleEnv (statusOf [1, 3]), exampleEnv (statusOf [4, 0])]
      (MboxMonitor.Run.start (NewMboxMonitor exampleConfig))) = some 1 :=
  (MboxMonitor.Run_loop_same_count_lines exampleConfig (exampleEnv (statusOf [4]))
    [exampleEnv (statusOf [1, 3]), exampleEnv (statusOf [4, 0])] 4 (by decide)
    (by
      intro e he
      simp only [List.mem_cons, List.mem_singleton, List.not_mem_nil, or_false] at he
      rcases he with rfl | rfl | rfl <;> rfl)).1

end CubeGmail
